import Mathlib

/-!
Verification of the generic vertex-attribute binding helper
`SetVertexAttributes` (raylib/rlgl_utils.go) of kokizzu/raylib-go.

The Go function inspects the static element type of a vertex slice via
reflection and, for each requested attribute binding, issues a pair of GPU
calls (set-attribute-pointer, enable-attribute) with derived component
count, GL element type, stride and byte offset; malformed configurations
panic. We embed it as a pure function from the reflected type, the vertex
list and the binding-request list to the ordered trace of issued GPU calls
together with an optional fatal error (modelling the panic). The vertex
list contributes only its emptiness, exactly as in the source, where it is
used only for the `len(vertices) == 0` check (the stride comes from
`unsafe.Sizeof`, a compile-time function of the element type alone).

Reflection metadata (field names, byte offsets, sizes) is carried as data
in the `GoType` values, as `reflect` presents it; `int32` conversions and
arithmetic of the source are modelled by explicit two's-complement
normalisation (`i32`, `i32mul`).
-/

namespace RlglUtils

/-- The enumeration of Go's `reflect.Kind` values. `rawPtr` stands for the
pointer kind of Go's unchecked-pointer package. -/
inductive Kind where
  | invalid | bool | int | int8 | int16 | int32 | int64
  | uint | uint8 | uint16 | uint32 | uint64 | uintptr
  | float32 | float64 | complex64 | complex128
  | array | chan | func | interface | map | pointer | slice
  | string | struct | rawPtr
  deriving DecidableEq, Repr, Fintype

/-- Byte size reported by Go for a value of a non-composite kind on a
64-bit platform (`unsafe.Sizeof`). Composite kinds (array, struct) carry
their size in the `GoType` value instead and report 0 here. -/
def kindSize : Kind → Nat
  | .bool => 1
  | .int => 8
  | .int8 => 1
  | .int16 => 2
  | .int32 => 4
  | .int64 => 8
  | .uint => 8
  | .uint8 => 1
  | .uint16 => 2
  | .uint32 => 4
  | .uint64 => 8
  | .uintptr => 8
  | .float32 => 4
  | .float64 => 8
  | .complex64 => 8
  | .complex128 => 16
  | .chan => 8
  | .func => 8
  | .interface => 16
  | .map => 8
  | .pointer => 8
  | .slice => 24
  | .string => 16
  | .rawPtr => 8
  | .invalid => 0
  | .array => 0
  | .struct => 0

/-- Modelled from the spec: the GPU element type code `BYTE` (the `Byte`
constant of the rlgl binding layer, which is outside the sources under
verification; the standard OpenGL value is used). -/
def glByte : Int := 0x1400

/-- Modelled from the spec: the GPU element type code `UNSIGNED_BYTE`. -/
def glUnsignedByte : Int := 0x1401

/-- Modelled from the spec: the GPU element type code `SHORT`. -/
def glShort : Int := 0x1402

/-- Modelled from the spec: the GPU element type code `UNSIGNED_SHORT`. -/
def glUnsignedShort : Int := 0x1403

/-- Modelled from the spec: the GPU element type code `INT`. -/
def glInt : Int := 0x1404

/-- Modelled from the spec: the GPU element type code `UNSIGNED_INT`. -/
def glUnsignedInt : Int := 0x1405

/-- Modelled from the spec: the GPU element type code `FLOAT`. -/
def glFloat : Int := 0x1406

/-- Modelled from the spec: the GPU element type code `DOUBLE`. -/
def glDouble : Int := 0x140A

/-- Embedding of `glType` (rlgl_utils.go:132-153): maps a `reflect.Kind`
to its GL type code and an ok flag; every kind outside the table yields
`(-1, false)`. -/
def glType (k : Kind) : Int × Bool :=
  match k with
  | .int8 => (glByte, true)
  | .uint8 => (glUnsignedByte, true)
  | .int16 => (glShort, true)
  | .uint16 => (glUnsignedShort, true)
  | .int32 => (glInt, true)
  | .uint32 => (glUnsignedInt, true)
  | .float32 => (glFloat, true)
  | .float64 => (glDouble, true)
  | _ => (-1, false)

mutual
/-- A Go type as `reflect` presents it to `SetVertexAttributes`: a
non-composite type identified by its kind (`base`), a declared named type
over an underlying type (`named`, distinct from its underlying type under
`reflect.Type` identity), a fixed-size array, or a struct carrying its
total byte size and its ordered field list (field name, byte offset, field
type), which is how `reflect` reports layout. -/
inductive GoType where
  | base : Kind → GoType
  | named : String → GoType → GoType
  | array : Nat → GoType → GoType
  | struct : Nat → Fields → GoType
  deriving DecidableEq, Repr

/-- The ordered field list of a struct type: each entry is a field name,
its byte offset within the struct, and its type. -/
inductive Fields where
  | nil : Fields
  | fcons : String → Nat → GoType → Fields → Fields
  deriving DecidableEq, Repr
end

/-- View a `Fields` value as a plain list of (name, offset, type). -/
def Fields.toList : Fields → List (String × Nat × GoType)
  | .nil => []
  | .fcons n o t rest => (n, o, t) :: rest.toList

/-- `reflect.Type.Kind()`: the kind of a type; a named type has the kind
of its underlying type. -/
def kindOf : GoType → Kind
  | .base k => k
  | .named _ u => kindOf u
  | .array _ _ => .array
  | .struct _ _ => .struct

/-- `unsafe.Sizeof` / `reflect.Type.Size()`: the byte size of one value of
the type. -/
def typeSize : GoType → Nat
  | .base k => kindSize k
  | .named _ u => typeSize u
  | .array n e => n * typeSize e
  | .struct sz _ => sz

/-- `reflect.Type.Elem()` for array types (the element type); other types
yield the invalid type (reflect would panic, and the algorithm only calls
this under an array-kind guard). -/
def elemOf : GoType → GoType
  | .named _ u => elemOf u
  | .array _ e => e
  | _ => .base .invalid

/-- `reflect.Type.Len()` for array types (the declared length). -/
def lenOf : GoType → Nat
  | .named _ u => lenOf u
  | .array n _ => n
  | _ => 0

/-- The field list of a struct type as a plain list; non-struct types have
no fields. -/
def fieldsOf : GoType → List (String × Nat × GoType)
  | .named _ u => fieldsOf u
  | .struct _ fs => fs.toList
  | _ => []

/-- `reflect.Type.FieldByName`: the first field with the given name, with
its byte offset and type, or `none`. -/
def fieldByName (t : GoType) (nm : String) : Option (String × Nat × GoType) :=
  (fieldsOf t).find? (fun f => f.1 = nm)

/-- Go's conversion to `int32`: two's-complement normalisation into
`[-2^31, 2^31)` (the literals are `2^31` and `2^32`). -/
def i32 (x : Int) : Int := (x + 2147483648) % 4294967296 - 2147483648

/-- Go's `int32` multiplication: multiply and normalise. -/
def i32mul (a b : Int) : Int := i32 (a * b)

/-- Embedding of `VertexAttributesConfig` (rlgl_utils.go:10-14). -/
structure VertexAttributesConfig where
  Field : String
  Attribute : Nat
  Normalized : Bool
  deriving DecidableEq, Repr

/-- One call into the external GPU binding layer: either
`SetVertexAttribute(index, compCount, elemType, normalized, stride,
offset)` or `EnableVertexAttribute(index)`. The function's observable
effect is the ordered list of these calls. -/
inductive GpuCall where
  | setVertexAttribute (index : Nat) (compCount : Int) (elemType : Int)
      (normalized : Bool) (stride : Int) (offset : Int)
  | enableVertexAttribute (index : Nat)
  deriving DecidableEq, Repr

/-- The fatal validation failures of `SetVertexAttributes`, one per panic
site of the source (panic message text abstracted to the site's identity;
`unknownField` keeps the offending field name). -/
inductive Err where
  | unsupportedRecordShape
  | unsupportedArrayBackingType
  | unknownField (fieldName : String)
  | unsupportedFieldArrayElem
  | emptyAggregate
  | heterogeneousAggregate
  | childFirstFieldNotPrimitive
  deriving DecidableEq, Repr

/-- Processing of one binding-request entry on the struct-backed path
(rlgl_utils.go:68-127): resolve the field, then the primitive / array /
child-struct cases; a field whose kind falls outside those cases hits no
case of the source's `switch` and is silently skipped (`.ok []`). -/
def structEntry (t : GoType) (stride : Int) (attr : VertexAttributesConfig) :
    Except Err (List GpuCall) :=
  match fieldByName t attr.Field with
  | none => .error (.unknownField attr.Field)
  | some (_, off, ftype) =>
    let p := glType (kindOf ftype)
    if p.2 then
      .ok [.setVertexAttribute attr.Attribute 1 p.1 attr.Normalized stride (i32 off),
           .enableVertexAttribute attr.Attribute]
    else
      match kindOf ftype with
      | .array =>
        let elemKind := kindOf (elemOf ftype)
        let components := i32 (lenOf ftype)
        let q := glType elemKind
        if q.2 then
          .ok [.setVertexAttribute attr.Attribute components q.1 attr.Normalized stride (i32 off),
               .enableVertexAttribute attr.Attribute]
        else .error .unsupportedFieldArrayElem
      | .struct =>
        let fs := fieldsOf ftype
        let components := i32 fs.length
        if components = 0 then .error .emptyAggregate
        else
          match fs with
          | [] => .error .emptyAggregate
          | f0 :: rest =>
            let prevType := f0.2.2
            let q := glType (kindOf prevType)
            if !q.2 then .error .childFirstFieldNotPrimitive
            else if rest.any (fun g => g.2.2 != prevType) then
              .error .heterogeneousAggregate
            else
              .ok [.setVertexAttribute attr.Attribute components q.1 attr.Normalized stride (i32 off),
                   .enableVertexAttribute attr.Attribute]
      | _ => .ok []

/-- Run the per-entry processor over the binding requests in order,
concatenating the emitted GPU calls; a failing entry stops the run at once
(its own and all later entries contribute nothing), while calls of earlier
entries stay in the trace. -/
def emitAll (f : VertexAttributesConfig → Except Err (List GpuCall)) :
    List VertexAttributesConfig → List GpuCall × Option Err
  | [] => ([], none)
  | a :: rest =>
    match f a with
    | .error e => ([], some e)
    | .ok cs =>
      let r := emitAll f rest
      (cs ++ r.1, r.2)

/-- The array-backed emission loop (rlgl_utils.go:56-61): the i-th request
gets offset `int32(i) * int32(attributeSize)`; `i` is the running index. -/
def arrayEntries (components attrType : Int) (attributeSize : Nat) (stride : Int) :
    Nat → List VertexAttributesConfig → List GpuCall
  | _, [] => []
  | i, a :: rest =>
    .setVertexAttribute a.Attribute components attrType a.Normalized stride
        (i32mul (i32 (i : Int)) (i32 (attributeSize : Int)))
      :: .enableVertexAttribute a.Attribute
      :: arrayEntries components attrType attributeSize stride (i + 1) rest

/-- Embedding of `SetVertexAttributes` (rlgl_utils.go:30-130). `t` is the
reflected static element type of the vertex slice
(`reflect.TypeOf((*T)(nil)).Elem()`); the vertex list is consulted only
for the `len(vertices) == 0` early return, and the stride is
`int32(unsafe.Sizeof(vertices[0]))`, a function of `t` alone. The result
is the ordered GPU call trace and the fatal error, if any. -/
def SetVertexAttributes {α : Type u} (t : GoType) (vertices : List α)
    (attributes : List VertexAttributesConfig) : List GpuCall × Option Err :=
  if vertices.isEmpty then ([], none)
  else
    let stride := i32 (typeSize t : Int)
    match kindOf t with
    | .array =>
      let arrayKind := kindOf (elemOf t)
      let p := glType arrayKind
      if !p.2 then ([], some .unsupportedArrayBackingType)
      else
        let components := i32 (lenOf t : Int)
        let attributeSize := typeSize (elemOf t)
        (arrayEntries components p.1 attributeSize stride 0 attributes, none)
    | .struct => emitAll (structEntry t stride) attributes
    | _ => ([], some .unsupportedRecordShape)

/-- The GPU calls of one successfully processed entry (none for a failed
one); used to describe the trace left behind by the entries before a
failing entry. -/
def okCalls : Except Err (List GpuCall) → List GpuCall
  | .ok cs => cs
  | .error _ => []

/-- The stride argument carried by a GPU call, when it has one. -/
def strideOf : GpuCall → Option Int
  | .setVertexAttribute _ _ _ _ st _ => some st
  | .enableVertexAttribute _ => none

/-- Sample record: `struct { A int32; B int }` (8-byte-aligned layout).
The `B` field's kind is in no case of the struct-path switch. -/
def tScalarInt : GoType :=
  .struct 16 (.fcons "A" 0 (.base .int32) (.fcons "B" 8 (.base .int) .nil))

/-- Sample record: `struct { A float32; B uint8 }`. -/
def tFloatByte : GoType :=
  .struct 8 (.fcons "A" 0 (.base .float32) (.fcons "B" 4 (.base .uint8) .nil))

/-- The named type `Vector3 struct { X, Y, Z float32 }`. -/
def vec3Type : GoType :=
  .named "Vector3" (.struct 12 (.fcons "X" 0 (.base .float32)
    (.fcons "Y" 4 (.base .float32) (.fcons "Z" 8 (.base .float32) .nil))))

/-- Sample record: `struct { Position Vector3 }`. -/
def tVertex : GoType := .struct 12 (.fcons "Position" 0 vec3Type .nil)

/-- Sample record with a heterogeneous nested aggregate:
`struct { P struct { X float32; Y uint8 } }`. -/
def tHetero : GoType :=
  .struct 8 (.fcons "P" 0 (.struct 8 (.fcons "X" 0 (.base .float32)
    (.fcons "Y" 4 (.base .uint8) .nil))) .nil)

/-- Sample record with an empty nested aggregate: `struct { P struct {} }`. -/
def tEmptyAgg : GoType := .struct 4 (.fcons "P" 0 (.struct 0 .nil) .nil)

/-- Sample record whose nested aggregate mixes `float32` with a named type
declared as `type MyFloat float32`: the two member types have the same
underlying primitive kind but are distinct declared types. -/
def tNamedPair : GoType :=
  .struct 8 (.fcons "P" 0 (.struct 8 (.fcons "X" 0 (.base .float32)
    (.fcons "Y" 4 (.named "MyFloat" (.base .float32)) .nil))) .nil)

/-! ### Arithmetic helper lemmas for the `int32` model -/

theorem i32_eq_self (x : Int) (h0 : 0 ≤ x) (h : x < 2 ^ 31) : i32 x = x := by
  unfold i32
  norm_num at h
  omega

theorem i32_ofNat (n : Nat) (h : n < 2 ^ 31) : i32 (n : Int) = (n : Int) := by
  have h' : n < 2147483648 := by norm_num at h; exact h
  unfold i32
  omega

theorem i32_congr {a b : Int} (h : a % 4294967296 = b % 4294967296) :
    i32 a = i32 b := by
  unfold i32
  omega

theorem i32_emod_eq (x : Int) : i32 x % 4294967296 = x % 4294967296 := by
  unfold i32
  omega

theorem i32mul_i32 (a b : Int) : i32mul (i32 a) (i32 b) = i32 (a * b) := by
  unfold i32mul
  apply i32_congr
  rw [Int.mul_emod, i32_emod_eq, i32_emod_eq, ← Int.mul_emod]

/-! ### Structure lemmas about the emission loops -/

theorem emitAll_nil (f : VertexAttributesConfig → Except Err (List GpuCall)) :
    emitAll f [] = ([], none) := rfl

theorem emitAll_cons_error {f : VertexAttributesConfig → Except Err (List GpuCall)}
    {a : VertexAttributesConfig} {e : Err} (rest : List VertexAttributesConfig)
    (h : f a = .error e) : emitAll f (a :: rest) = ([], some e) := by
  simp [emitAll, h]

theorem emitAll_cons_ok {f : VertexAttributesConfig → Except Err (List GpuCall)}
    {a : VertexAttributesConfig} {cs : List GpuCall} (rest : List VertexAttributesConfig)
    (h : f a = .ok cs) :
    emitAll f (a :: rest) = (cs ++ (emitAll f rest).1, (emitAll f rest).2) := by
  simp [emitAll, h]

theorem emitAll_append_error {f : VertexAttributesConfig → Except Err (List GpuCall)}
    {bad : VertexAttributesConfig} {e : Err} :
    ∀ (pre : List VertexAttributesConfig) (post : List VertexAttributesConfig),
      (∀ a ∈ pre, ∃ cs, f a = .ok cs) → f bad = .error e →
      emitAll f (pre ++ bad :: post) = (pre.flatMap (fun a => okCalls (f a)), some e) := by
  intro pre
  induction pre with
  | nil =>
    intro post _ hbad
    simpa using emitAll_cons_error post hbad
  | cons a rest ih =>
    intro post hpre hbad
    obtain ⟨cs, hcs⟩ := hpre a (by simp)
    rw [List.cons_append, emitAll_cons_ok _ hcs,
      ih post (fun b hb => hpre b (by simp [hb])) hbad]
    simp [okCalls, hcs]

theorem SVA_nonempty_struct {α : Type u} {t : GoType} {vs : List α}
    (attrs : List VertexAttributesConfig) (hvs : vs ≠ []) (hk : kindOf t = .struct) :
    SetVertexAttributes t vs attrs =
      emitAll (structEntry t (i32 (typeSize t : Int))) attrs := by
  cases vs with
  | nil => exact absurd rfl hvs
  | cons x xs =>
    unfold SetVertexAttributes
    rw [hk]
    rfl

theorem SVA_nonempty_array {α : Type u} {e : GoType} {code : Int} (n : Nat)
    (vs : List α) (attrs : List VertexAttributesConfig)
    (hvs : vs ≠ []) (hprim : glType (kindOf e) = (code, true)) :
    SetVertexAttributes (GoType.array n e) vs attrs =
      (arrayEntries (i32 (n : Int)) code (typeSize e)
        (i32 (typeSize (GoType.array n e) : Int)) 0 attrs, none) := by
  cases vs with
  | nil => exact absurd rfl hvs
  | cons x xs =>
    unfold SetVertexAttributes
    show (if (false : Bool) then _ else _) = _
    simp only [if_neg (by simp : ¬ (false : Bool) = true)]
    show (if !(glType (kindOf (elemOf (GoType.array n e)))).2 then _ else _) = _
    have he : elemOf (GoType.array n e) = e := rfl
    rw [he, hprim]
    rfl

theorem arrayEntries_length (c ty : Int) (sz : Nat) (st : Int) :
    ∀ (attrs : List VertexAttributesConfig) (k : Nat),
      (arrayEntries c ty sz st k attrs).length = 2 * attrs.length := by
  intro attrs
  induction attrs with
  | nil => intro k; rfl
  | cons a rest ih =>
    intro k
    simp only [arrayEntries, List.length_cons, ih (k + 1)]
    omega

theorem arrayEntries_get? (c ty : Int) (sz : Nat) (st : Int) :
    ∀ (attrs : List VertexAttributesConfig) (k i : Nat)
      (a : VertexAttributesConfig), attrs[i]? = some a →
      (arrayEntries c ty sz st k attrs)[2 * i]? =
        some (.setVertexAttribute a.Attribute c ty a.Normalized st
          (i32mul (i32 ((k + i : Nat) : Int)) (i32 (sz : Int)))) ∧
      (arrayEntries c ty sz st k attrs)[2 * i + 1]? =
        some (.enableVertexAttribute a.Attribute) := by
  intro attrs
  induction attrs with
  | nil => intro k i a h; simp at h
  | cons b rest ih =>
    intro k i a h
    cases i with
    | zero =>
      have hb : a = b := by simpa using h.symm
      subst hb
      exact ⟨by simp [arrayEntries], by simp [arrayEntries]⟩
    | succ i =>
      have h' : rest[i]? = some a := by simpa using h
      have hrec := ih (k + 1) i a h'
      have hk : k + 1 + i = k + (i + 1) := by omega
      rw [hk] at hrec
      have h2 : 2 * (i + 1) = 2 * i + 1 + 1 := by omega
      constructor
      · rw [h2]
        simpa [arrayEntries] using hrec.1
      · rw [h2]
        simpa [arrayEntries] using hrec.2

/-! ### Per-entry lemmas for the struct-backed path -/

theorem structEntry_unknown {t : GoType} (st : Int) (a : VertexAttributesConfig)
    (h : fieldByName t a.Field = none) :
    structEntry t st a = .error (.unknownField a.Field) := by
  simp [structEntry, h]

theorem structEntry_child_ok {t : GoType} (st : Int) (a : VertexAttributesConfig)
    {nm : String} {off : Nat} {ftype : GoType}
    {f0 : String × Nat × GoType} {rest : List (String × Nat × GoType)} {code : Int}
    (hf : fieldByName t a.Field = some (nm, off, ftype))
    (hkf : kindOf ftype = .struct)
    (hfs : fieldsOf ftype = f0 :: rest)
    (hprim : glType (kindOf f0.2.2) = (code, true))
    (hhomo : ∀ g ∈ rest, g.2.2 = f0.2.2)
    (hlen : rest.length + 1 < 2 ^ 31) :
    structEntry t st a = .ok
      [.setVertexAttribute a.Attribute ((rest.length + 1 : Nat) : Int) code a.Normalized
        st (i32 (off : Int)),
       .enableVertexAttribute a.Attribute] := by
  have hlen' : i32 ((rest.length + 1 : Nat) : Int) = ((rest.length + 1 : Nat) : Int) :=
    i32_ofNat _ hlen
  have hne0 : ¬ (i32 (((f0 :: rest).length : Nat) : Int) = 0) := by
    simp only [List.length_cons, hlen']
    intro hc
    have : (rest.length : Int) + 1 ≤ 0 := by push_cast at hc ⊢; omega
    omega
  have hany : rest.any (fun g => g.2.2 != f0.2.2) = false := by
    rw [List.any_eq_false]
    intro g hg
    simpa [bne_iff_ne] using hhomo g hg
  have hglstruct : glType Kind.struct = (-1, false) := rfl
  simp only [structEntry, hf, hkf, hglstruct, hfs, hprim, Bool.false_eq_true,
    if_false, if_neg hne0, Bool.not_true, hany, List.length_cons, hlen']
  simp
  omega

theorem structEntry_child_empty {t : GoType} (st : Int) (a : VertexAttributesConfig)
    {nm : String} {off : Nat} {ftype : GoType}
    (hf : fieldByName t a.Field = some (nm, off, ftype))
    (hkf : kindOf ftype = .struct)
    (hfs : fieldsOf ftype = []) :
    structEntry t st a = .error .emptyAggregate := by
  have hglstruct : glType Kind.struct = (-1, false) := rfl
  have h0 : i32 ((([] : List (String × Nat × GoType)).length : Nat) : Int) = 0 := by
    simp [i32]
  simp only [structEntry, hf, hkf, hglstruct, hfs, h0, Bool.false_eq_true, if_false]
  simp

theorem structEntry_child_het {t : GoType} (st : Int) (a : VertexAttributesConfig)
    {nm : String} {off : Nat} {ftype : GoType}
    {f0 : String × Nat × GoType} {rest : List (String × Nat × GoType)} {code : Int}
    (hf : fieldByName t a.Field = some (nm, off, ftype))
    (hkf : kindOf ftype = .struct)
    (hfs : fieldsOf ftype = f0 :: rest)
    (hprim : glType (kindOf f0.2.2) = (code, true))
    (hex : ∃ g ∈ rest, g.2.2 ≠ f0.2.2)
    (hlen : rest.length + 1 < 2 ^ 31) :
    structEntry t st a = .error .heterogeneousAggregate := by
  have hlen' : i32 ((rest.length + 1 : Nat) : Int) = ((rest.length + 1 : Nat) : Int) :=
    i32_ofNat _ hlen
  have hne0 : ¬ (i32 (((f0 :: rest).length : Nat) : Int) = 0) := by
    simp only [List.length_cons, hlen']
    intro hc
    have : (rest.length : Int) + 1 ≤ 0 := by push_cast at hc ⊢; omega
    omega
  have hany : rest.any (fun g => g.2.2 != f0.2.2) = true := by
    rw [List.any_eq_true]
    obtain ⟨g, hg, hne⟩ := hex
    exact ⟨g, hg, by simpa [bne_iff_ne] using hne⟩
  have hglstruct : glType Kind.struct = (-1, false) := rfl
  simp only [structEntry, hf, hkf, hglstruct, hfs, hprim, Bool.false_eq_true,
    if_false, if_neg hne0, Bool.not_true, hany, List.length_cons, hlen']
  simp
  omega

/-! ### The claims -/

/-- C5: for every record type and every binding request list, calling with
an empty vertex sequence is a no-op — it returns at once with an empty GPU
call trace and no error, whatever the record type or bindings are. -/
theorem empty_vertices_noop (α : Type u) (t : GoType)
    (attrs : List VertexAttributesConfig) :
    SetVertexAttributes t ([] : List α) attrs = ([], none) := rfl

/-- C10: the GPU call trace and the outcome depend only on the static
record type, the binding request list, and the emptiness of the vertex
sequence: two invocations with the same type and bindings and non-empty
vertex lists of any element types, contents or lengths coincide. -/
theorem trace_depends_only_on_type_and_bindings {α : Type u} {β : Type v}
    (t : GoType) (vs₁ : List α) (vs₂ : List β)
    (attrs : List VertexAttributesConfig) (h₁ : vs₁ ≠ []) (h₂ : vs₂ ≠ []) :
    SetVertexAttributes t vs₁ attrs = SetVertexAttributes t vs₂ attrs := by
  cases vs₁ with
  | nil => exact absurd rfl h₁
  | cons x xs =>
    cases vs₂ with
    | nil => exact absurd rfl h₂
    | cons y ys => rfl

theorem trace_depends_only_on_type_and_bindings_witness :
    SetVertexAttributes tFloatByte [3, 4, 5] [⟨"A", 0, false⟩] =
      SetVertexAttributes tFloatByte ["p", "q"] [⟨"A", 0, false⟩] :=
  trace_depends_only_on_type_and_bindings tFloatByte [3, 4, 5] ["p", "q"]
    [⟨"A", 0, false⟩] (by decide) (fun h => by cases h)

/-- C2: for an array-backed record whose element kind is a supported
primitive, a binding request list of length N yields exactly N
(set-pointer, enable) pairs in request order; every descriptor's component
count is the declared array length and its element type the mapped code,
and the i-th entry's byte offset is `i * elementSize` — derived purely
from request position. (The size bounds keep the `int32` conversions of
the source below overflow.) -/
theorem arrayBacked_emits_indexed_descriptors {α : Type u} (n : Nat) (e : GoType)
    (code : Int) (attrs : List VertexAttributesConfig) (vs : List α)
    (hvs : vs ≠ []) (hprim : glType (kindOf e) = (code, true))
    (hn : n < 2 ^ 31) (hoff : attrs.length * typeSize e < 2 ^ 31) :
    (SetVertexAttributes (GoType.array n e) vs attrs).2 = none ∧
    (SetVertexAttributes (GoType.array n e) vs attrs).1.length = 2 * attrs.length ∧
    (∀ i a, attrs[i]? = some a →
      (SetVertexAttributes (GoType.array n e) vs attrs).1[2 * i]? =
        some (.setVertexAttribute a.Attribute (n : Int) code a.Normalized
          (i32 (typeSize (GoType.array n e) : Int)) ((i * typeSize e : Nat) : Int)) ∧
      (SetVertexAttributes (GoType.array n e) vs attrs).1[2 * i + 1]? =
        some (.enableVertexAttribute a.Attribute)) := by
  rw [SVA_nonempty_array n vs attrs hvs hprim]
  refine ⟨rfl, arrayEntries_length _ _ _ _ attrs 0, ?_⟩
  intro i a h
  have hi : i < attrs.length := by
    by_contra hni
    push_neg at hni
    rw [List.getElem?_eq_none hni] at h
    cases h
  have hcn : i32 (n : Int) = (n : Int) := i32_ofNat n hn
  have hsz : i * typeSize e < 2 ^ 31 := by
    have hle : i * typeSize e ≤ attrs.length * typeSize e :=
      Nat.mul_le_mul_right _ hi.le
    norm_num at hoff ⊢
    omega
  have hioff : i32mul (i32 ((0 + i : Nat) : Int)) (i32 (typeSize e : Int)) =
      ((i * typeSize e : Nat) : Int) := by
    rw [i32mul_i32]
    have hcast : ((0 + i : Nat) : Int) * ((typeSize e : Nat) : Int) =
        ((i * typeSize e : Nat) : Int) := by
      push_cast
      ring
    rw [hcast]
    exact i32_ofNat _ hsz
  obtain ⟨h1, h2⟩ :=
    arrayEntries_get? (i32 (n : Int)) code (typeSize e)
      (i32 (typeSize (GoType.array n e) : Int)) attrs 0 i a h
  refine ⟨?_, ?_⟩
  · show (arrayEntries (i32 (n : Int)) code (typeSize e)
        (i32 (typeSize (GoType.array n e) : Int)) 0 attrs)[2 * i]? = _
    rw [h1, hcn, hioff]
  · show (arrayEntries (i32 (n : Int)) code (typeSize e)
        (i32 (typeSize (GoType.array n e) : Int)) 0 attrs)[2 * i + 1]? = _
    exact h2

theorem arrayBacked_emits_indexed_descriptors_witness :
    (([()] : List Unit) ≠ [] ∧
      glType (kindOf (GoType.base .float32)) = (glFloat, true) ∧
      (2 : Nat) < 2 ^ 31 ∧
      ([⟨"", 5, true⟩, ⟨"", 6, false⟩] :
        List VertexAttributesConfig).length * typeSize (GoType.base .float32) < 2 ^ 31) ∧
    ((SetVertexAttributes (GoType.array 2 (GoType.base .float32)) [()]
        [⟨"", 5, true⟩, ⟨"", 6, false⟩]).2 = none ∧
      (SetVertexAttributes (GoType.array 2 (GoType.base .float32)) [()]
        [⟨"", 5, true⟩, ⟨"", 6, false⟩]).1.length = 2 * 2 ∧
      (∀ i a, ([⟨"", 5, true⟩, ⟨"", 6, false⟩] :
          List VertexAttributesConfig)[i]? = some a →
        (SetVertexAttributes (GoType.array 2 (GoType.base .float32)) [()]
          [⟨"", 5, true⟩, ⟨"", 6, false⟩]).1[2 * i]? =
          some (.setVertexAttribute a.Attribute ((2 : Nat) : Int) glFloat a.Normalized
            (i32 (typeSize (GoType.array 2 (GoType.base .float32)) : Int))
            ((i * typeSize (GoType.base .float32) : Nat) : Int)) ∧
        (SetVertexAttributes (GoType.array 2 (GoType.base .float32)) [()]
          [⟨"", 5, true⟩, ⟨"", 6, false⟩]).1[2 * i + 1]? =
          some (.enableVertexAttribute a.Attribute))) := by
  refine ⟨⟨List.cons_ne_nil _ _, by decide, by decide, by decide⟩, ?_⟩
  exact arrayBacked_emits_indexed_descriptors 2 (GoType.base .float32) glFloat
    [⟨"", 5, true⟩, ⟨"", 6, false⟩] [()] (List.cons_ne_nil _ _) (by decide)
    (by decide) (by decide)

/-- C3: a failing entry on the struct-backed path aborts the call at the
point of detection: the trace holds exactly the calls of the earlier,
successful entries (nothing rolled back) and nothing for the failing entry
or any later entry; moreover, when the failing entry names a nonexistent
field, the error is precisely `unknownField` for that name, raised before
any GPU call of that entry. -/
theorem validation_failure_aborts_preserving_earlier_calls {α : Type u}
    (t : GoType) (vs : List α) (pre post : List VertexAttributesConfig)
    (bad : VertexAttributesConfig) (e : Err)
    (hvs : vs ≠ []) (hk : kindOf t = .struct)
    (hpre : ∀ a ∈ pre, ∃ cs, structEntry t (i32 (typeSize t : Int)) a = .ok cs)
    (hbad : structEntry t (i32 (typeSize t : Int)) bad = .error e) :
    SetVertexAttributes t vs (pre ++ bad :: post) =
      (pre.flatMap (fun a => okCalls (structEntry t (i32 (typeSize t : Int)) a)),
        some e) ∧
    (fieldByName t bad.Field = none → e = .unknownField bad.Field) := by
  constructor
  · rw [SVA_nonempty_struct _ hvs hk]
    exact emitAll_append_error pre post hpre hbad
  · intro hnone
    have h2 := hbad.symm.trans (structEntry_unknown (i32 (typeSize t : Int)) bad hnone)
    injection h2

theorem validation_failure_aborts_preserving_earlier_calls_witness :
    SetVertexAttributes tFloatByte [()]
      ([⟨"A", 0, false⟩] ++ ⟨"C", 1, false⟩ :: [⟨"B", 2, false⟩]) =
      ([.setVertexAttribute 0 1 glFloat false 8 0, .enableVertexAttribute 0],
        some (.unknownField "C")) :=
  ((validation_failure_aborts_preserving_earlier_calls tFloatByte [()]
      [⟨"A", 0, false⟩] [⟨"B", 2, false⟩] ⟨"C", 1, false⟩ (.unknownField "C")
      (List.cons_ne_nil _ _) rfl
      (fun a ha => by
        rw [List.mem_singleton] at ha
        subst ha
        exact ⟨_, rfl⟩)
      rfl).1).trans (by decide)

/-- C7: a struct-backed binding entry whose field is a nested aggregate
with at least one member, all members of one supported primitive type,
emits one descriptor whose component count is the number of member fields,
whose element type is the shared primitive's GPU code and whose byte
offset is the field's offset in the parent record, followed by the enable
call for the same attribute index. -/
theorem nested_aggregate_descriptor {α : Type u}
    (t : GoType) (vs : List α) (cfg : VertexAttributesConfig)
    (nm : String) (off : Nat) (ftype : GoType)
    (f0 : String × Nat × GoType) (rest : List (String × Nat × GoType)) (code : Int)
    (hvs : vs ≠ []) (hk : kindOf t = .struct)
    (hf : fieldByName t cfg.Field = some (nm, off, ftype))
    (hkf : kindOf ftype = .struct)
    (hfs : fieldsOf ftype = f0 :: rest)
    (hprim : glType (kindOf f0.2.2) = (code, true))
    (hhomo : ∀ g ∈ rest, g.2.2 = f0.2.2)
    (hlen : rest.length + 1 < 2 ^ 31) (hoff : off < 2 ^ 31) :
    SetVertexAttributes t vs [cfg] =
      ([.setVertexAttribute cfg.Attribute (((f0 :: rest).length : Nat) : Int) code
          cfg.Normalized (i32 (typeSize t : Int)) ((off : Nat) : Int),
        .enableVertexAttribute cfg.Attribute], none) := by
  rw [SVA_nonempty_struct _ hvs hk,
    emitAll_cons_ok []
      (structEntry_child_ok (i32 (typeSize t : Int)) cfg hf hkf hfs hprim hhomo hlen),
    emitAll_nil]
  rw [i32_ofNat off hoff]
  simp

theorem nested_aggregate_descriptor_witness :
    SetVertexAttributes tVertex [()] [⟨"Position", 3, false⟩] =
      ([.setVertexAttribute 3 3 glFloat false 12 0, .enableVertexAttribute 3],
        none) :=
  (nested_aggregate_descriptor tVertex [()] ⟨"Position", 3, false⟩
    "Position" 0 vec3Type ("X", 0, .base .float32)
    [("Y", 4, .base .float32), ("Z", 8, .base .float32)] glFloat
    (List.cons_ne_nil _ _) rfl rfl rfl rfl rfl
    (by decide) (by decide) (by decide)).trans (by decide)

/-- C8: a struct-backed binding entry whose field is a nested aggregate
fails with `emptyAggregate` when the aggregate has zero member fields, and
with `heterogeneousAggregate` (the check is pairwise against the first
member's type) when the members do not all share the first member's
(supported primitive) type; in either case no GPU call is issued for that
entry or any entry after it. -/
theorem nested_aggregate_rejections {α : Type u}
    (t : GoType) (vs : List α) (cfg : VertexAttributesConfig)
    (post : List VertexAttributesConfig)
    (nm : String) (off : Nat) (ftype : GoType)
    (hvs : vs ≠ []) (hk : kindOf t = .struct)
    (hf : fieldByName t cfg.Field = some (nm, off, ftype))
    (hkf : kindOf ftype = .struct) :
    (fieldsOf ftype = [] →
      SetVertexAttributes t vs (cfg :: post) = ([], some .emptyAggregate)) ∧
    (∀ (f0 : String × Nat × GoType) (rest : List (String × Nat × GoType)) (code : Int),
      fieldsOf ftype = f0 :: rest →
      glType (kindOf f0.2.2) = (code, true) →
      (∃ g ∈ rest, g.2.2 ≠ f0.2.2) →
      rest.length + 1 < 2 ^ 31 →
      SetVertexAttributes t vs (cfg :: post) =
        ([], some .heterogeneousAggregate)) := by
  constructor
  · intro hfs0
    rw [SVA_nonempty_struct _ hvs hk,
      emitAll_cons_error post (structEntry_child_empty (i32 (typeSize t : Int)) cfg hf hkf hfs0)]
  · intro f0 rest code hfs hprim hex hlen
    rw [SVA_nonempty_struct _ hvs hk,
      emitAll_cons_error post
        (structEntry_child_het (i32 (typeSize t : Int)) cfg hf hkf hfs hprim hex hlen)]

theorem nested_aggregate_rejections_witness :
    SetVertexAttributes tHetero [()] [⟨"P", 0, false⟩] =
      ([], some .heterogeneousAggregate) ∧
    SetVertexAttributes tEmptyAgg [()] [⟨"P", 0, false⟩] =
      ([], some .emptyAggregate) := by
  constructor
  · exact (nested_aggregate_rejections tHetero [()] ⟨"P", 0, false⟩ []
      "P" 0 (.struct 8 (.fcons "X" 0 (.base .float32)
        (.fcons "Y" 4 (.base .uint8) .nil)))
      (List.cons_ne_nil _ _) rfl rfl rfl).2
      ("X", 0, .base .float32) [("Y", 4, .base .uint8)] glFloat rfl rfl
      ⟨("Y", 4, .base .uint8), by decide, by decide⟩ (by decide)
  · exact (nested_aggregate_rejections tEmptyAgg [()] ⟨"P", 0, false⟩ []
      "P" 0 (.struct 0 .nil) (List.cons_ne_nil _ _) rfl rfl rfl).1 rfl

/-- C9: the same-type check on nested aggregate members compares declared
field types for identity, not just primitive kind: when some member's type
differs from the first member's type as a declared type — even with the
same underlying primitive kind — the entry is rejected as heterogeneous,
with no GPU call for it or any entry after it. -/
theorem aggregate_member_type_identity {α : Type u}
    (t : GoType) (vs : List α) (cfg : VertexAttributesConfig)
    (post : List VertexAttributesConfig)
    (nm : String) (off : Nat) (ftype : GoType)
    (f0 g : String × Nat × GoType) (rest : List (String × Nat × GoType)) (code : Int)
    (hvs : vs ≠ []) (hk : kindOf t = .struct)
    (hf : fieldByName t cfg.Field = some (nm, off, ftype))
    (hkf : kindOf ftype = .struct)
    (hfs : fieldsOf ftype = f0 :: rest)
    (hprim : glType (kindOf f0.2.2) = (code, true))
    (hg : g ∈ rest) (_hkind : kindOf g.2.2 = kindOf f0.2.2) (hne : g.2.2 ≠ f0.2.2)
    (hlen : rest.length + 1 < 2 ^ 31) :
    SetVertexAttributes t vs (cfg :: post) =
      ([], some .heterogeneousAggregate) := by
  rw [SVA_nonempty_struct _ hvs hk,
    emitAll_cons_error post
      (structEntry_child_het (i32 (typeSize t : Int)) cfg hf hkf hfs hprim
        ⟨g, hg, hne⟩ hlen)]

theorem aggregate_member_type_identity_witness :
    SetVertexAttributes tNamedPair [()] [⟨"P", 0, false⟩] =
      ([], some .heterogeneousAggregate) :=
  aggregate_member_type_identity tNamedPair [()] ⟨"P", 0, false⟩ []
    "P" 0 (.struct 8 (.fcons "X" 0 (.base .float32)
      (.fcons "Y" 4 (.named "MyFloat" (.base .float32)) .nil)))
    ("X", 0, .base .float32) ("Y", 4, .named "MyFloat" (.base .float32))
    [("Y", 4, .named "MyFloat" (.base .float32))] glFloat
    (List.cons_ne_nil _ _) rfl rfl rfl rfl rfl
    (by decide) (by decide) (by decide) (by decide)

theorem arrayEntries_stride (comp ty : Int) (sz : Nat) (st : Int) :
    ∀ (attrs : List VertexAttributesConfig) (k : Nat) (c : GpuCall),
      c ∈ arrayEntries comp ty sz st k attrs →
      strideOf c = none ∨ strideOf c = some st := by
  intro attrs
  induction attrs with
  | nil => intro k c hc; simp [arrayEntries] at hc
  | cons a rest ih =>
    intro k c hc
    simp only [arrayEntries, List.mem_cons] at hc
    rcases hc with rfl | rfl | hc
    · right; rfl
    · left; rfl
    · exact ih (k + 1) c hc

theorem structEntry_stride (t : GoType) (st : Int) (a : VertexAttributesConfig)
    (cs : List GpuCall) (h : structEntry t st a = .ok cs) :
    ∀ c ∈ cs, strideOf c = none ∨ strideOf c = some st := by
  intro c hc
  simp only [structEntry] at h
  repeat' split at h
  all_goals (try (cases h))
  all_goals simp only [List.mem_cons, List.not_mem_nil, or_false] at hc
  all_goals
    (rcases hc with rfl | rfl
     · right; rfl
     · left; rfl)

theorem emitAll_mem (f : VertexAttributesConfig → Except Err (List GpuCall))
    (P : GpuCall → Prop)
    (hf : ∀ a cs, f a = .ok cs → ∀ c ∈ cs, P c) :
    ∀ (attrs : List VertexAttributesConfig) (c : GpuCall),
      c ∈ (emitAll f attrs).1 → P c := by
  intro attrs
  induction attrs with
  | nil => intro c hc; simp [emitAll] at hc
  | cons a rest ih =>
    intro c hc
    cases hfa : f a with
    | error e => rw [emitAll_cons_error rest hfa] at hc; simp at hc
    | ok cs =>
      rw [emitAll_cons_ok rest hfa] at hc
      simp only [List.mem_append] at hc
      rcases hc with hc | hc
      · exact hf a cs hfa c hc
      · exact ih c hc

/-- C6: in one invocation every emitted descriptor carries the same stride
value, the in-memory byte size of one vertex record (computed once from
the record type); no per-field or per-entry stride exists. -/
theorem stride_uniform_eq_record_size {α : Type u} (t : GoType) (vs : List α)
    (attrs : List VertexAttributesConfig) (h : typeSize t < 2 ^ 31) :
    ∀ c ∈ (SetVertexAttributes t vs attrs).1,
      strideOf c = none ∨ strideOf c = some ((typeSize t : Nat) : Int) := by
  have hst : i32 (typeSize t : Int) = ((typeSize t : Nat) : Int) := i32_ofNat _ h
  intro c hc
  cases vs with
  | nil =>
    rw [show SetVertexAttributes t ([] : List α) attrs = ([], none) from rfl] at hc
    simp at hc
  | cons x xs =>
    unfold SetVertexAttributes at hc
    simp only [List.isEmpty_cons, Bool.false_eq_true, if_false] at hc
    split at hc
    · split at hc
      · simp at hc
      · rw [← hst]
        exact arrayEntries_stride _ _ _ _ attrs 0 c hc
    · rw [← hst]
      exact emitAll_mem _ _
        (fun a cs hcs => structEntry_stride t _ a cs hcs) attrs c hc
    · simp at hc

theorem stride_uniform_eq_record_size_witness :
    typeSize tFloatByte < 2 ^ 31 ∧
    ∀ c ∈ (SetVertexAttributes tFloatByte [()]
        [⟨"A", 0, false⟩, ⟨"B", 1, false⟩]).1,
      strideOf c = none ∨ strideOf c = some ((typeSize tFloatByte : Nat) : Int) :=
  ⟨by decide, stride_uniform_eq_record_size tFloatByte [()]
    [⟨"A", 0, false⟩, ⟨"B", 1, false⟩] (by decide)⟩

/-- C1: the claim says a resolved struct field whose type is neither a
supported primitive nor a fixed-size array nor a struct must abort with a
hard `UnsupportedFieldShape` failure. The code has no default case in the
struct-path switch (rlgl_utils.go:87-127), so such an entry is silently
skipped: for `struct { A int32; B int }` the binding for `B` resolves, is
not a supported primitive, has neither array nor struct kind, yet the call
issues no GPU call for it and reports no error — a later entry (`A`) is
still processed. -/
theorem unsupportedFieldShape_is_silently_skipped :
    fieldByName tScalarInt "B" = some ("B", 8, .base .int) ∧
    (glType (kindOf (GoType.base .int))).2 = false ∧
    kindOf (GoType.base .int) ≠ .array ∧
    kindOf (GoType.base .int) ≠ .struct ∧
    SetVertexAttributes tScalarInt [()] [⟨"B", 1, false⟩] = ([], none) ∧
    SetVertexAttributes tScalarInt [()] [⟨"B", 1, false⟩, ⟨"A", 2, false⟩] =
      ([.setVertexAttribute 2 1 glInt false 16 0, .enableVertexAttribute 2], none) := by
  decide

/-- C4 (counterexample): the claim repeats the spec's description of the
accepted set as "the seven supported kinds", but the table accepts exactly
eight kinds. -/
theorem glType_accepts_eight_kinds_not_seven :
    (Finset.univ.filter fun k : Kind => (glType k).2).card = 8 ∧
    (Finset.univ.filter fun k : Kind => (glType k).2).card ≠ 7 := by
  decide

/-- C4 (amended): `glType` returns exactly the table's code for each of
the eight listed kinds and not-found (`(-1, false)`) for every other kind
— in particular plain `int`, plain `uint`, `int64`, `uint64` and `bool`
are rejected; the accepted set has eight kinds, not seven. -/
theorem glType_table_and_rejections :
    glType .int8 = (glByte, true) ∧
    glType .uint8 = (glUnsignedByte, true) ∧
    glType .int16 = (glShort, true) ∧
    glType .uint16 = (glUnsignedShort, true) ∧
    glType .int32 = (glInt, true) ∧
    glType .uint32 = (glUnsignedInt, true) ∧
    glType .float32 = (glFloat, true) ∧
    glType .float64 = (glDouble, true) ∧
    (∀ k : Kind,
      k ∉ ([.int8, .uint8, .int16, .uint16, .int32, .uint32, .float32, .float64] :
        List Kind) → glType k = (-1, false)) ∧
    (Finset.univ.filter fun k : Kind => (glType k).2).card = 8 := by
  decide

end RlglUtils
